import Mathlib

/-!
# Verification of `plot_dr_over_ifpr.py`

A shallow embedding of the plotting script `src/plot_dr_over_ifpr.py`.
Floating-point values are modelled as exact rationals (`ℚ`), the pandas
dataframe as a `List Row`, and fallible indexing (`values[0]` on a possibly
empty selection) as `Option`.
-/

namespace PlotDrOverIfpr

/-- One row of the dataframe loaded from `./results/dr_over_ifpr.json`, after
the `astype` coercions on line 45-48 of the script: `det_ratio`, `fp_rate`,
`threshold` are floats (modelled as `ℚ`), `window_size` is an int (`ℤ`).
The column `ifp_rate` is present and consumed but not re-typed. -/
structure Row where
  det_ratio : ℚ
  fp_rate : ℚ
  ifp_rate : ℚ
  threshold : ℚ
  window_size : ℤ
deriving Repr, DecidableEq

/-- Round-half-to-even on rationals: the rounding mode of `np.around`. -/
def roundHalfEven (q : ℚ) : ℤ :=
  let f : ℤ := ⌊q⌋
  let frac : ℚ := q - f
  if frac < 1/2 then f
  else if 1/2 < frac then f + 1
  else if f % 2 = 0 then f else f + 1

/-- `np.around(x, decimals=1)` (line 49): round `10*x` half-to-even, divide
by 10. -/
def round1 (x : ℚ) : ℚ :=
  ((roundHalfEven (10 * x) : ℤ) : ℚ) / 10

/-- Line 49: `dataframe['threshold'] = np.around(dataframe['threshold'],
decimals=1)` — replace each row's threshold by its 1-decimal rounding,
leaving every other column untouched. -/
def roundThresholds (rows : List Row) : List Row :=
  rows.map (fun r => { r with threshold := round1 r.threshold })

/-- `sorted(np.unique(column))`: the distinct values of a list in ascending
order (lines 53-54). -/
def sortedUnique {α : Type} [LinearOrder α] [DecidableEq α]
    (l : List α) : List α :=
  List.insertionSort (· ≤ ·) l.dedup

/-- Line 53: `thresholds = sorted(np.unique(dataframe['threshold'].values))`. -/
def thresholds (rows : List Row) : List ℚ :=
  sortedUnique (rows.map Row.threshold)

/-- Line 54: `window_sizes = sorted(np.unique(dataframe['window_size'].values))`. -/
def window_sizes (rows : List Row) : List ℤ :=
  sortedUnique (rows.map Row.window_size)

/-- Line 65: the marker list `marker_ = ['o', 'v', 'P', 's', 'D', 'x']`. -/
def markerSymbols : List Char := ['o', 'v', 'P', 's', 'D', 'x']

/-- Lines 64-66: `markers(index)` returns `markers_[index % len(markers_)]`.
The index `index % markerSymbols.length` is always in range (see the safety
theorem), so `getD` with a dummy default is an exact model of the Python
list indexing. -/
def markers (index : Nat) : Char :=
  markerSymbols.getD (index % markerSymbols.length) ' '

/-- Lines 79-82: for a fixed threshold `t` and window size `w`, select the
rows matching both, and take `ifp_rate` / `det_ratio` of the first one
(`.values[0]`).  An empty selection raises `IndexError` in Python, modelled
as `none`. -/
def selectPoint (rows : List Row) (t : ℚ) (w : ℤ) : Option (ℚ × ℚ) :=
  match (rows.filter (fun r => r.threshold = t)).filter
      (fun r => r.window_size = w) with
  | [] => none
  | r :: _ => some (r.ifp_rate, r.det_ratio)

/-- The artifacts drawn by one iteration of the outer loop (lines 70-89):
one series per threshold, carrying the colour specification string
`C{i}` (modelled by the raw index `i`), the marker `markers(i)`, and the
`(ifp_rate, det_ratio)` coordinates of its points in `window_sizes` order. -/
structure Series where
  threshold : ℚ
  colorSpec : Nat
  marker : Char
  points : List (ℚ × ℚ)
deriving Repr, DecidableEq

/-- The inner loop of lines 79-82: walk the window sizes in order, selecting
the point for each; the first missing `(threshold, window_size)` combination
aborts the script (`none`). -/
def selectXY (rows : List Row) (t : ℚ) : List ℤ → Option (List (ℚ × ℚ))
  | [] => some []
  | w :: ws =>
    match selectPoint rows t w, selectXY rows t ws with
    | some xy, some rest => some (xy :: rest)
    | _, _ => none

/-- Lines 70-89 for the tail of `enumerate(thresholds)` starting at the given
entries: build each threshold's series, each point drawn with
`color=f'C{i}', marker=markers(i)`. -/
def buildSeries (rows : List Row) : List (Nat × ℚ) → Option (List Series)
  | [] => some []
  | (i, t) :: its =>
    match selectXY rows t (window_sizes rows), buildSeries rows its with
    | some xys, some rest => some (⟨t, i, markers i, xys⟩ :: rest)
    | _, _ => none

/-- The whole plotting loop (lines 70-89): one series per entry of
`enumerate(thresholds)`. -/
def plotSeries (rows : List Row) : Option (List Series) :=
  buildSeries rows (thresholds rows).enum

/-- Number of point-marker artifacts (`ax.plot` calls of line 86) in a list
of series. -/
def totalPoints (ss : List Series) : Nat :=
  (ss.map (fun s => s.points.length)).sum

/-- Modelled from the spec: matplotlib resolves the `CN` colour notation of
`color=f'C{i}'` to entry `N mod (palette size)` of its default property
cycle; the resolution itself is library code, not in `src/`. -/
def paletteSize : Nat := 10

/-- Modelled from the spec: the palette index matplotlib assigns to the
colour specification `C{c}` (see `paletteSize`). -/
def resolveColor (c : Nat) : Nat := c % paletteSize

/-- One entry of the custom legend built on lines 115-118: label threshold,
`color=f'C{i}'`, `marker=markers(i)`. -/
structure LegendEntry where
  threshold : ℚ
  colorSpec : Nat
  marker : Char
deriving Repr, DecidableEq

/-- Lines 115-118: `legend_elements`, one entry per `enumerate(thresholds)`. -/
def legend_elements (rows : List Row) : List LegendEntry :=
  (thresholds rows).enum.map (fun it => ⟨it.2, it.1, markers it.1⟩)

/-- The plotted geometry: the series (points with their styles), the legend,
and the fixed axis limits of lines 97-98 (`xlim(3e-1, 6e3)`,
`ylim(0.82, 0.98)`). -/
structure Geometry where
  series : List Series
  legend : List LegendEntry
  xlim : ℚ × ℚ
  ylim : ℚ × ℚ
deriving Repr, DecidableEq

/-- A minimal filesystem model for the output step: the set of existing
directories, as a list of paths. -/
abbrev FileSys := List String

/-- `Path(d).mkdir(exist_ok=ok)` (line 129): error when the directory exists
and `exist_ok` is false, otherwise return the (possibly extended)
filesystem. -/
def mkdir (fs : FileSys) (d : String) (existOk : Bool) :
    Except String FileSys :=
  if d ∈ fs then
    if existOk then .ok fs else .error "FileExistsError"
  else .ok (d :: fs)

/-- The result of one successful run of the script: the plotted geometry,
the path the figure was saved to (line 134), the filesystem after `mkdir`,
and the elapsed time printed on line 142 — the only output that depends on
the wall clock. -/
structure RunOutput where
  geometry : Geometry
  savedPath : String
  fsAfter : FileSys
  elapsed : ℚ
deriving Repr, DecidableEq

/-- The whole pipeline on already-parsed input rows: `astype` + threshold
rounding (lines 45-49), indexing (53-54), the plotting loop (70-89), fixed
axis limits (97-98), legend (115-120), `mkdir` (129) and `savefig` (134).
`scriptStart`/`scriptEnd` are the two `time.time()` readings (lines 34 and
142); a missing `(threshold, window_size)` combination aborts before the
save step, so no output file is written (`none`). -/
def run (fs : FileSys) (raw : List Row) (scriptStart scriptEnd : ℚ) :
    Option RunOutput :=
  let rows := roundThresholds raw
  match plotSeries rows, mkdir fs "./plots" true with
  | some ss, .ok fs1 =>
    some { geometry := { series := ss
                         legend := legend_elements rows
                         xlim := (3/10, 6000)
                         ylim := (82/100, 98/100) }
           savedPath := "./plots/dr_over_ifpr.pdf"
           fsAfter := fs1
           elapsed := scriptEnd - scriptStart }
  | _, _ => none

/-! ## Helper lemmas -/

theorem roundHalfEven_intCast (n : ℤ) : roundHalfEven (n : ℚ) = n := by
  simp [roundHalfEven]

theorem round1_fixed (x : ℚ) : round1 (round1 x) = round1 x := by
  unfold round1
  have h10 : (10 : ℚ) * (((roundHalfEven (10 * x) : ℤ) : ℚ) / 10)
      = ((roundHalfEven (10 * x) : ℤ) : ℚ) := by
    field_simp
  rw [h10, roundHalfEven_intCast]

theorem sortedUnique_sorted_le {α : Type} [LinearOrder α] [DecidableEq α]
    (l : List α) : List.Sorted (· ≤ ·) (sortedUnique l) :=
  List.sorted_insertionSort _ _

theorem sortedUnique_nodup {α : Type} [LinearOrder α] [DecidableEq α]
    (l : List α) : (sortedUnique l).Nodup :=
  (List.perm_insertionSort _ _).nodup_iff.mpr (List.nodup_dedup l)

theorem sortedUnique_sorted_lt {α : Type} [LinearOrder α] [DecidableEq α]
    (l : List α) : List.Sorted (· < ·) (sortedUnique l) :=
  (sortedUnique_sorted_le l).lt_of_le (sortedUnique_nodup l)

theorem sortedUnique_perm_invariant {α : Type} [LinearOrder α] [DecidableEq α]
    {l l' : List α} (h : l.Perm l') : sortedUnique l = sortedUnique l' :=
  List.eq_of_perm_of_sorted
    ((List.perm_insertionSort _ _).trans
      ((h.dedup).trans (List.perm_insertionSort _ _).symm))
    (sortedUnique_sorted_le l) (sortedUnique_sorted_le l')

theorem head?_filter_eq_find? {α : Type} (p : α → Bool) :
    ∀ l : List α, (l.filter p).head? = l.find? p
  | [] => rfl
  | a :: l => by
    cases h : p a <;>
      simp [List.filter_cons, h, head?_filter_eq_find? p l]

theorem selectPoint_eq_head? (rows : List Row) (t : ℚ) (w : ℤ) :
    selectPoint rows t w
      = ((rows.filter (fun r => r.threshold = t)).filter
          (fun r => r.window_size = w)).head?.map
          (fun r => (r.ifp_rate, r.det_ratio)) := by
  unfold selectPoint
  cases (rows.filter (fun r => decide (r.threshold = t))).filter
      (fun r => decide (r.window_size = w)) <;> rfl

theorem selectPoint_eq_find? (rows : List Row) (t : ℚ) (w : ℤ) :
    selectPoint rows t w
      = (rows.find? (fun r => r.threshold = t ∧ r.window_size = w)).map
          (fun r => (r.ifp_rate, r.det_ratio)) := by
  rw [selectPoint_eq_head?, head?_filter_eq_find?, List.find?_filter]
  simp

theorem round1_intCast (n : ℤ) : round1 ((n : ℤ) : ℚ) = n := by
  unfold round1
  have h : (10 : ℚ) * (n : ℚ) = ((10 * n : ℤ) : ℚ) := by push_cast; ring
  rw [h, roundHalfEven_intCast]
  push_cast
  field_simp

theorem selectXY_some (rows : List Row) (t : ℚ) :
    ∀ ws : List ℤ, (∀ w ∈ ws, (selectPoint rows t w).isSome) →
      ∃ xys, selectXY rows t ws = some xys ∧ xys.length = ws.length := by
  intro ws
  induction ws with
  | nil => exact fun _ => ⟨[], rfl, rfl⟩
  | cons w ws ih =>
    intro h
    obtain ⟨xy, hxy⟩ :=
      Option.isSome_iff_exists.mp (h w (List.mem_cons_self w ws))
    obtain ⟨xys, hxys, hlen⟩ := ih (fun v hv => h v (List.mem_cons_of_mem _ hv))
    exact ⟨xy :: xys, by simp [selectXY, hxy, hxys], by simp [hlen]⟩

theorem selectXY_none (rows : List Row) (t : ℚ) (w : ℤ)
    (hw : selectPoint rows t w = none) :
    ∀ ws : List ℤ, w ∈ ws → selectXY rows t ws = none := by
  intro ws
  induction ws with
  | nil => intro h; cases h
  | cons v ws ih =>
    intro h
    rcases List.mem_cons.mp h with rfl | h'
    · unfold selectXY
      rw [hw]
    · unfold selectXY
      rw [ih h']
      cases selectPoint rows t v <;> rfl

theorem buildSeries_none (rows : List Row) (t : ℚ)
    (hxy : selectXY rows t (window_sizes rows) = none) :
    ∀ its : List (Nat × ℚ), t ∈ its.map Prod.snd → buildSeries rows its = none := by
  intro its
  induction its with
  | nil => intro h; cases h
  | cons p its ih =>
    obtain ⟨i, u⟩ := p
    intro h
    have h2 : t = u ∨ t ∈ its.map Prod.snd := by
      rw [List.map_cons] at h
      exact List.mem_cons.mp h
    rcases h2 with rfl | h'
    · unfold buildSeries
      rw [hxy]
    · unfold buildSeries
      rw [ih h']
      cases selectXY rows u (window_sizes rows) <;> rfl

theorem buildSeries_some (rows : List Row) :
    ∀ its : List (Nat × ℚ),
      (∀ p ∈ its, ∃ xys, selectXY rows p.2 (window_sizes rows) = some xys ∧
        xys.length = (window_sizes rows).length) →
      ∃ ss, buildSeries rows its = some ss ∧ ss.length = its.length ∧
        totalPoints ss = its.length * (window_sizes rows).length := by
  intro its
  induction its with
  | nil => exact fun _ => ⟨[], rfl, rfl, by simp [totalPoints]⟩
  | cons p its ih =>
    obtain ⟨i, t⟩ := p
    intro h
    obtain ⟨xys, hxys, hlen⟩ := h (i, t) (List.mem_cons_self _ _)
    obtain ⟨ss, hss, hsl, hst⟩ := ih (fun q hq => h q (List.mem_cons_of_mem _ hq))
    refine ⟨⟨t, i, markers i, xys⟩ :: ss, ?_, by simp [hsl], ?_⟩
    · unfold buildSeries
      rw [hxys, hss]
    · simp [totalPoints] at hst ⊢
      rw [hlen, hst]
      ring

theorem buildSeries_forall₂ (rows : List Row) :
    ∀ (its : List (Nat × ℚ)) (ss : List Series), buildSeries rows its = some ss →
      List.Forall₂ (fun (p : Nat × ℚ) (s : Series) =>
        s.threshold = p.2 ∧ s.colorSpec = p.1 ∧ s.marker = markers p.1 ∧
        selectXY rows p.2 (window_sizes rows) = some s.points) its ss := by
  intro its
  induction its with
  | nil =>
    intro ss h
    obtain rfl : ([] : List Series) = ss := by simpa [buildSeries] using h
    constructor
  | cons p its ih =>
    obtain ⟨i, t⟩ := p
    intro ss h
    unfold buildSeries at h
    cases hxy : selectXY rows t (window_sizes rows) with
    | none =>
      rw [hxy] at h
      cases buildSeries rows its <;> simp at h
    | some xys =>
      rw [hxy] at h
      cases hbs : buildSeries rows its with
      | none => rw [hbs] at h; simp at h
      | some rest =>
        rw [hbs] at h
        obtain rfl : (⟨t, i, markers i, xys⟩ : Series) :: rest = ss := by
          simpa using h
        exact List.Forall₂.cons ⟨rfl, rfl, rfl, by rw [hxy]⟩ (ih rest hbs)

theorem enum_map_snd {α : Type} (l : List α) :
    l.enum.map Prod.snd = l :=
  List.enumFrom_map_snd 0 l

/-! ## Claim theorems -/

/-- C7. Rounding to one decimal place is idempotent on threshold values:
`round1 (round1 x) = round1 x` for every input `x` (so a value already
produced by the loader's 1-decimal rounding step is left unchanged by a
second application). -/
theorem C7_round1_idempotent (x : ℚ) : round1 (round1 x) = round1 x :=
  round1_fixed x

/-- C9. The marker-selection function is total and cyclic: for every index
`i`, the internal list index `i % len` is in range, and
`markers i = markers (i % 6) = markers (i + 6)`. -/
theorem C9_markers_total_cyclic (i : Nat) :
    i % markerSymbols.length < markerSymbols.length ∧
    markers i = markers (i % 6) ∧ markers (i + 6) = markers i := by
  have hlen : markerSymbols.length = 6 := rfl
  refine ⟨?_, ?_, ?_⟩
  · rw [hlen]; omega
  · have h : i % 6 % 6 = i % 6 := by omega
    simp [markers, hlen, h]
  · have h : (i + 6) % 6 = i % 6 := by omega
    simp [markers, hlen, h]

/-- C8. Output-directory creation is idempotent: with `exist_ok=True` the
`mkdir` call never errors, yields a state containing `./plots`, repeating it
is a no-op, and an already-existing directory is left as-is. -/
theorem C8_mkdir_idempotent (fs : FileSys) :
    ∃ fs1, mkdir fs "./plots" true = .ok fs1 ∧
      "./plots" ∈ fs1 ∧
      mkdir fs1 "./plots" true = .ok fs1 ∧
      ("./plots" ∈ fs → fs1 = fs) := by
  by_cases h : "./plots" ∈ fs
  · exact ⟨fs, by simp [mkdir, h], h, by simp [mkdir, h], fun _ => rfl⟩
  · refine ⟨"./plots" :: fs, by simp [mkdir, h], by simp, by simp [mkdir], fun hc => absurd hc h⟩

/-- C8 witness: instantiated at a filesystem already containing `./plots`. -/
theorem C8_mkdir_idempotent_witness :
    ∃ fs1, mkdir ["./plots"] "./plots" true = .ok fs1 ∧
      "./plots" ∈ fs1 ∧
      mkdir fs1 "./plots" true = .ok fs1 ∧
      ("./plots" ∈ ["./plots"] → fs1 = ["./plots"]) :=
  C8_mkdir_idempotent ["./plots"]

/-- C10. The threshold-rounding step modifies only the threshold column:
row count is preserved, and in every row `det_ratio`, `fp_rate`, `ifp_rate`
and `window_size` are unchanged (the threshold itself becomes its
1-decimal rounding). -/
theorem C10_roundThresholds_frame (rows : List Row) :
    (roundThresholds rows).length = rows.length ∧
    ∀ i : Nat, i < rows.length →
      ∃ r r', rows.get? i = some r ∧ (roundThresholds rows).get? i = some r' ∧
        r'.det_ratio = r.det_ratio ∧ r'.fp_rate = r.fp_rate ∧
        r'.ifp_rate = r.ifp_rate ∧ r'.window_size = r.window_size ∧
        r'.threshold = round1 r.threshold := by
  constructor
  · simp [roundThresholds]
  · intro i hi
    have hget : rows.get? i = some (rows.get ⟨i, hi⟩) := List.get?_eq_get hi
    refine ⟨rows.get ⟨i, hi⟩,
      { rows.get ⟨i, hi⟩ with threshold := round1 (rows.get ⟨i, hi⟩).threshold },
      hget, ?_, rfl, rfl, rfl, rfl, rfl⟩
    simp only [roundThresholds, List.get?_eq_getElem?, List.getElem?_map,
      List.getElem?_eq_getElem hi, Option.map_some]
    rfl

/-- C10 witness: a two-row table, checked at index 0. -/
theorem C10_roundThresholds_frame_witness :
    ∃ r r', [(⟨9/10, 1/100, 2, 47/100, 10⟩ : Row), ⟨85/100, 2/100, 5, 1/2, 100⟩].get? 0 = some r ∧
      (roundThresholds [⟨9/10, 1/100, 2, 47/100, 10⟩, ⟨85/100, 2/100, 5, 1/2, 100⟩]).get? 0 = some r' ∧
      r'.det_ratio = r.det_ratio ∧ r'.fp_rate = r.fp_rate ∧
      r'.ifp_rate = r.ifp_rate ∧ r'.window_size = r.window_size ∧
      r'.threshold = round1 r.threshold :=
  (C10_roundThresholds_frame
    [⟨9/10, 1/100, 2, 47/100, 10⟩, ⟨85/100, 2/100, 5, 1/2, 100⟩]).2 0 (by decide)

/-- C5. Two-run determinism of the plotted geometry: on the same filesystem
and the same parsed input, two runs with arbitrary (different) wall-clock
readings produce exactly the same geometry — same series (point coordinates,
colours, markers), same legend, same axis limits — even though the elapsed
time (and, per the spec, PDF metadata) may differ. -/
theorem C5_run_geometry_deterministic (fs : FileSys) (raw : List Row)
    (s1 e1 s2 e2 : ℚ) :
    (run fs raw s1 e1).map RunOutput.geometry
      = (run fs raw s2 e2).map RunOutput.geometry := by
  unfold run
  rcases hps : plotSeries (roundThresholds raw) with _ | ss <;>
    rcases hmk : mkdir fs "./plots" true with e | fs1 <;>
      simp [hps, hmk]

/-- C6. The indexer yields the distinct threshold values in strictly
ascending order and the distinct window-size values in strictly ascending
order (hence duplicate-free), and the result is invariant under any
reordering of the input rows. -/
theorem C6_indexer_sorted_distinct (rows rows' : List Row)
    (hperm : rows.Perm rows') :
    List.Sorted (· < ·) (thresholds rows) ∧
    List.Sorted (· < ·) (window_sizes rows) ∧
    (thresholds rows).Nodup ∧ (window_sizes rows).Nodup ∧
    thresholds rows = thresholds rows' ∧
    window_sizes rows = window_sizes rows' :=
  ⟨sortedUnique_sorted_lt _, sortedUnique_sorted_lt _,
    sortedUnique_nodup _, sortedUnique_nodup _,
    sortedUnique_perm_invariant (hperm.map Row.threshold),
    sortedUnique_perm_invariant (hperm.map Row.window_size)⟩

/-- C6 witness: a concrete two-row table and its swap. -/
theorem C6_indexer_sorted_distinct_witness :
    List.Sorted (· < ·) (thresholds [⟨9/10, 1/100, 2, 1/2, 10⟩, ⟨85/100, 2/100, 5, 9/10, 100⟩]) ∧
    List.Sorted (· < ·) (window_sizes [⟨9/10, 1/100, 2, 1/2, 10⟩, ⟨85/100, 2/100, 5, 9/10, 100⟩]) ∧
    (thresholds [⟨9/10, 1/100, 2, 1/2, 10⟩, ⟨85/100, 2/100, 5, 9/10, 100⟩]).Nodup ∧
    (window_sizes [⟨9/10, 1/100, 2, 1/2, 10⟩, ⟨85/100, 2/100, 5, 9/10, 100⟩]).Nodup ∧
    thresholds [⟨9/10, 1/100, 2, 1/2, 10⟩, ⟨85/100, 2/100, 5, 9/10, 100⟩]
      = thresholds [⟨85/100, 2/100, 5, 9/10, 100⟩, ⟨9/10, 1/100, 2, 1/2, 10⟩] ∧
    window_sizes [⟨9/10, 1/100, 2, 1/2, 10⟩, ⟨85/100, 2/100, 5, 9/10, 100⟩]
      = window_sizes [⟨85/100, 2/100, 5, 9/10, 100⟩, ⟨9/10, 1/100, 2, 1/2, 10⟩] :=
  C6_indexer_sorted_distinct _ _ (List.Perm.swap _ _ _)

/-- C4. First match wins: the selected point for a `(threshold,
window_size)` pair is `ifp_rate`/`det_ratio` of the first matching row in
input order (`List.find?`), and appending further rows — in particular
duplicate rows for the same pair — after an existing match does not change
the selection. -/
theorem C4_first_match_wins (rows extra : List Row) (t : ℚ) (w : ℤ)
    (h : (selectPoint rows t w).isSome) :
    selectPoint rows t w
      = (rows.find? (fun r => r.threshold = t ∧ r.window_size = w)).map
          (fun r => (r.ifp_rate, r.det_ratio)) ∧
    selectPoint (rows ++ extra) t w = selectPoint rows t w := by
  refine ⟨selectPoint_eq_find? rows t w, ?_⟩
  rw [selectPoint_eq_head?] at h
  rw [selectPoint_eq_head?, selectPoint_eq_head?, List.filter_append,
    List.filter_append, List.head?_append]
  cases hA : ((rows.filter (fun r => decide (r.threshold = t))).filter
      (fun r => decide (r.window_size = w))).head? with
  | none => rw [hA] at h; simp at h
  | some r => rfl

/-- C4 witness: a table with a duplicate `(1, 10)` row; the first row's
coordinates `(2, 7/10)` win, and appending yet another duplicate changes
nothing. -/
theorem C4_first_match_wins_witness :
    selectPoint [⟨7/10, 1, 2, 1, 10⟩, ⟨8/10, 1, 3, 1, 10⟩] 1 10
      = ([(⟨7/10, 1, 2, 1, 10⟩ : Row), ⟨8/10, 1, 3, 1, 10⟩].find?
          (fun r => r.threshold = 1 ∧ r.window_size = 10)).map
          (fun r => (r.ifp_rate, r.det_ratio)) ∧
    selectPoint ([⟨7/10, 1, 2, 1, 10⟩, ⟨8/10, 1, 3, 1, 10⟩] ++ [⟨9/10, 1, 4, 1, 10⟩]) 1 10
      = selectPoint [⟨7/10, 1, 2, 1, 10⟩, ⟨8/10, 1, 3, 1, 10⟩] 1 10 :=
  C4_first_match_wins _ _ 1 10 (by simp [selectPoint])

/-- A four-row table covering every pair of the thresholds `{1, 2}` and the
window sizes `{10, 100}`. -/
def sampleFull : List Row :=
  [⟨1, 1, 3, 1, 10⟩, ⟨1, 1, 4, 1, 100⟩, ⟨1, 1, 5, 2, 10⟩, ⟨1, 1, 6, 2, 100⟩]

/-- `sampleFull` without its `(2, 100)` row, so that pair has no match. -/
def sampleMissing : List Row :=
  [⟨1, 1, 3, 1, 10⟩, ⟨1, 1, 4, 1, 100⟩, ⟨1, 1, 5, 2, 10⟩]

/-- The series the plotting loop produces on `sampleFull`. -/
def sampleSeries : List Series :=
  [⟨1, 0, 'o', [(3, 1), (4, 1)]⟩, ⟨2, 1, 'v', [(5, 1), (6, 1)]⟩]

/-- C1. Stable threshold-to-style binding: in a successful plot, the series
at index `N` (thresholds ascending) is drawn with the marker at position
`N % 6` of `['o', 'v', 'P', 's', 'D', 'x']` and with resolved colour index
`N % paletteSize`, and the legend entry at index `N` carries exactly the
same colour specification, marker, and threshold as that series. -/
theorem C1_style_binding (rows : List Row) (ss : List Series) (N : Nat)
    (hps : plotSeries rows = some ss) (hN : N < ss.length) :
    (ss.get ⟨N, hN⟩).marker = markerSymbols.getD (N % 6) ' ' ∧
    resolveColor (ss.get ⟨N, hN⟩).colorSpec = N % paletteSize ∧
    ∃ hL : N < (legend_elements rows).length,
      ((legend_elements rows).get ⟨N, hL⟩).marker = (ss.get ⟨N, hN⟩).marker ∧
      ((legend_elements rows).get ⟨N, hL⟩).colorSpec
        = (ss.get ⟨N, hN⟩).colorSpec ∧
      ((legend_elements rows).get ⟨N, hL⟩).threshold
        = (ss.get ⟨N, hN⟩).threshold := by
  have hf := buildSeries_forall₂ rows (thresholds rows).enum ss hps
  obtain ⟨hlen, hrel⟩ := List.forall₂_iff_get.mp hf
  have hN' : N < (thresholds rows).enum.length := by omega
  obtain ⟨hth, hcs, hmk, -⟩ := hrel N hN' hN
  have henum : (thresholds rows).enum.get ⟨N, hN'⟩
      = (N, (thresholds rows).get ⟨N, by simpa [List.enum_length] using hN'⟩) := by
    simp [List.get_eq_getElem, List.getElem_enum]
  rw [henum] at hth hcs hmk
  have hL : N < (legend_elements rows).length := by
    simpa [legend_elements] using hN'
  have hleg : (legend_elements rows).get ⟨N, hL⟩
      = ⟨(thresholds rows).get ⟨N, by simpa [List.enum_length] using hN'⟩,
         N, markers N⟩ := by
    simp [legend_elements, List.get_eq_getElem, List.getElem_map,
      List.getElem_enum]
  refine ⟨?_, ?_, hL, ?_, ?_, ?_⟩
  · rw [hmk]; rfl
  · rw [hcs]; rfl
  · rw [hleg, hmk]
  · rw [hleg, hcs]
  · rw [hleg, hth]

/-- C1 witness: on `sampleFull` the series and legend entry at index 0 both
use colour `C0` and marker `o`. -/
theorem C1_style_binding_witness :
    plotSeries sampleFull = some sampleSeries ∧
    ∃ h0 : 0 < sampleSeries.length,
      (sampleSeries.get ⟨0, h0⟩).marker = markerSymbols.getD (0 % 6) ' ' ∧
      resolveColor (sampleSeries.get ⟨0, h0⟩).colorSpec = 0 % paletteSize ∧
      ∃ hL : 0 < (legend_elements sampleFull).length,
        ((legend_elements sampleFull).get ⟨0, hL⟩).marker
          = (sampleSeries.get ⟨0, h0⟩).marker ∧
        ((legend_elements sampleFull).get ⟨0, hL⟩).colorSpec
          = (sampleSeries.get ⟨0, h0⟩).colorSpec ∧
        ((legend_elements sampleFull).get ⟨0, hL⟩).threshold
          = (sampleSeries.get ⟨0, h0⟩).threshold :=
  ⟨by decide, by decide,
    C1_style_binding sampleFull sampleSeries 0 (by decide) (by decide)⟩

/-- C2. Under full coverage (every `(threshold, window_size)` pair of the
index has a matching row) the plotting loop succeeds and draws exactly
(number of distinct thresholds) × (number of distinct window sizes)
point-marker artifacts, one series per threshold. -/
theorem C2_point_count (rows : List Row)
    (hcov : ∀ t ∈ thresholds rows, ∀ w ∈ window_sizes rows,
      (selectPoint rows t w).isSome) :
    ∃ ss, plotSeries rows = some ss ∧
      ss.length = (thresholds rows).length ∧
      totalPoints ss = (thresholds rows).length * (window_sizes rows).length := by
  have h : ∀ p ∈ (thresholds rows).enum,
      ∃ xys, selectXY rows p.2 (window_sizes rows) = some xys ∧
        xys.length = (window_sizes rows).length := by
    intro p hp
    have ht : p.2 ∈ thresholds rows :=
      enum_map_snd (thresholds rows) ▸ List.mem_map_of_mem Prod.snd hp
    exact selectXY_some rows p.2 (window_sizes rows) (hcov p.2 ht)
  obtain ⟨ss, hss, hl, ht⟩ := buildSeries_some rows (thresholds rows).enum h
  exact ⟨ss, hss, by rw [hl, List.enum_length],
    by rw [ht, List.enum_length]⟩

/-- C2 witness: `sampleFull` has full coverage, and the loop draws
`2 × 2 = 4` point markers. -/
theorem C2_point_count_witness :
    (∀ t ∈ thresholds sampleFull, ∀ w ∈ window_sizes sampleFull,
      (selectPoint sampleFull t w).isSome) ∧
    ∃ ss, plotSeries sampleFull = some ss ∧
      ss.length = (thresholds sampleFull).length ∧
      totalPoints ss
        = (thresholds sampleFull).length * (window_sizes sampleFull).length :=
  ⟨by decide, C2_point_count sampleFull (by decide)⟩

/-- C3. If some `(threshold, window_size)` pair of the index has no matching
row, the point-selection step fails, the plotting loop aborts, and the run
produces no output file (the save step is never reached). -/
theorem C3_missing_pair_aborts (fs : FileSys) (raw : List Row) (s e : ℚ)
    (hmiss : ∃ t ∈ thresholds (roundThresholds raw),
      ∃ w ∈ window_sizes (roundThresholds raw),
        selectPoint (roundThresholds raw) t w = none) :
    plotSeries (roundThresholds raw) = none ∧ run fs raw s e = none := by
  obtain ⟨t, ht, w, hw, hsel⟩ := hmiss
  have hxy := selectXY_none (roundThresholds raw) t w hsel
    (window_sizes (roundThresholds raw)) hw
  have hbs : plotSeries (roundThresholds raw) = none := by
    apply buildSeries_none _ _ hxy
    rw [enum_map_snd]
    exact ht
  refine ⟨hbs, ?_⟩
  cases hmk : mkdir fs "./plots" true <;> simp [run, hbs, hmk]

/-- C3 witness: on `sampleMissing` (pair `(2, 100)` absent) the plotting
loop aborts and a run on an empty filesystem writes nothing. -/
theorem C3_missing_pair_aborts_witness :
    (∃ t ∈ thresholds (roundThresholds sampleMissing),
      ∃ w ∈ window_sizes (roundThresholds sampleMissing),
        selectPoint (roundThresholds sampleMissing) t w = none) ∧
    plotSeries (roundThresholds sampleMissing) = none ∧
    run [] sampleMissing 0 1 = none := by
  have hr : roundThresholds sampleMissing = sampleMissing := by
    have h1 : round1 (1 : ℚ) = 1 := by simpa using round1_intCast 1
    have h2 : round1 (2 : ℚ) = 2 := by simpa using round1_intCast 2
    simp [roundThresholds, sampleMissing, h1, h2]
  have hm : ∃ t ∈ thresholds (roundThresholds sampleMissing),
      ∃ w ∈ window_sizes (roundThresholds sampleMissing),
        selectPoint (roundThresholds sampleMissing) t w = none := by
    rw [hr]; decide
  exact ⟨hm, C3_missing_pair_aborts [] sampleMissing 0 1 hm⟩

end PlotDrOverIfpr
